/-
Verification of the Verlet ball simulation (src/main.rs).

The simulation state is embedded shallowly:
  * `f32` scalars become real numbers (`ℝ`); `Vec2` is a pair of reals.
  * Bevy's ECS storage of `(VerletObject, Ball)` components becomes an
    association list from entity id (`Nat`) to the two components.
  * The `Quadtree<Entity>` from the external `acceleration_structures`
    crate is not part of this repository's sources; it is modelled from
    the spec as a flat list of `(handle, rectangle)` entries whose
    `get_overlapped` query returns exactly the entries whose stored
    rectangle intersects the query rectangle (closed AABB test), and
    whose `entries` traversal yields the stored list.
  * A Rust `unwrap` panic and an IEEE NaN produced by normalizing the
    zero vector are both modelled by an `Except` error: `missingBody`
    for the panic, `degenerateNormalize` for the NaN.
-/
import Mathlib

noncomputable section

namespace Verlet

/-- A 2D vector over the reals, standing in for Bevy's `Vec2` of `f32`. -/
structure Vec2 where
  x : ℝ
  y : ℝ

instance : DecidableEq Vec2 :=
  fun a b => decidable_of_iff (a.x = b.x ∧ a.y = b.y) (by cases a; cases b; simp)

instance : Add Vec2 := ⟨fun a b => ⟨a.x + b.x, a.y + b.y⟩⟩

instance : Sub Vec2 := ⟨fun a b => ⟨a.x - b.x, a.y - b.y⟩⟩

instance : HMul Vec2 ℝ Vec2 := ⟨fun v s => ⟨v.x * s, v.y * s⟩⟩

def Vec2.zero : Vec2 := ⟨0, 0⟩

/-- Euclidean length, as in `glam`'s `Vec2::length`. -/
def Vec2.length (v : Vec2) : ℝ := Real.sqrt (v.x * v.x + v.y * v.y)

/-- Normalize as `glam`'s `Vec2::normalize`: divide by the length.  For the zero vector
the Rust result is NaN; callers in this development guard that case. -/
def Vec2.normalize (v : Vec2) : Vec2 := ⟨v.x / v.length, v.y / v.length⟩

@[simp] theorem vec_add_x (a b : Vec2) : (a + b).x = a.x + b.x := rfl

@[simp] theorem vec_add_y (a b : Vec2) : (a + b).y = a.y + b.y := rfl

@[simp] theorem vec_sub_x (a b : Vec2) : (a - b).x = a.x - b.x := rfl

@[simp] theorem vec_sub_y (a b : Vec2) : (a - b).y = a.y - b.y := rfl

@[simp] theorem vec_smul_x (a : Vec2) (s : ℝ) : (a * s).x = a.x * s := rfl

@[simp] theorem vec_smul_y (a : Vec2) (s : ℝ) : (a * s).y = a.y * s := rfl

@[simp] theorem vec_zero_x : Vec2.zero.x = 0 := rfl

@[simp] theorem vec_zero_y : Vec2.zero.y = 0 := rfl

@[simp] theorem vec_mk_add (a b c d : ℝ) : (⟨a, b⟩ + ⟨c, d⟩ : Vec2) = ⟨a + c, b + d⟩ := rfl

@[simp] theorem vec_mk_sub (a b c d : ℝ) : (⟨a, b⟩ - ⟨c, d⟩ : Vec2) = ⟨a - c, b - d⟩ := rfl

@[simp] theorem vec_mk_smul (a b s : ℝ) : ((⟨a, b⟩ : Vec2) * s) = (⟨a * s, b * s⟩ : Vec2) := rfl

/-- Bevy's `Rect` given by min/max corners, used for the `ARENA` constant. -/
structure BRect where
  min : Vec2
  max : Vec2

/-- Width as Bevy's `Rect::width()`: `max.x - min.x`. -/
def BRect.width (r : BRect) : ℝ := r.max.x - r.min.x

/-- Height as Bevy's `Rect::height()`: `max.y - min.y`. -/
def BRect.height (r : BRect) : ℝ := r.max.y - r.min.y

/-- The constant `GRAVITY: f32 = -1000.0`. -/
def GRAVITY : ℝ := -1000

/-- The constant `ARENA: Rect` with corners `(-900, -500)` and `(900, 500)`. -/
def ARENA : BRect := ⟨⟨-900, -500⟩, ⟨900, 500⟩⟩

/-- Modelled from the spec: the `rect::Rect` of the external
`acceleration_structures` crate, a corner-plus-size axis-aligned
rectangle (`new(x, y, w, h)` takes the min corner and the extents, as in
the quadtree-root construction in `main`). -/
structure Rect where
  x : ℝ
  y : ℝ
  w : ℝ
  h : ℝ

/-- Modelled from the spec: `rect::Rect::new_centered(cx, cy, w, h)`
builds the rectangle of width `w` and height `h` whose center is
`(cx, cy)` (the spec describes index boxes as "centered on the body's
current position with a fixed side length of 2 × radius", and
`update_quadtree` passes `radius * 2` for both extents). -/
def Rect.new_centered (cx cy w h : ℝ) : Rect := ⟨cx - w / 2, cy - h / 2, w, h⟩

/-- Modelled from the spec: the AABB intersection test used by
`get_overlapped` — two rectangles overlap iff their projections on both
axes intersect (closed comparison, so an entry always matches its own
rectangle). -/
def Rect.overlaps (a b : Rect) : Bool :=
  decide (a.x ≤ b.x + b.w ∧ b.x ≤ a.x + a.w ∧ a.y ≤ b.y + b.h ∧ b.y ≤ a.y + a.h)

/-- The `VerletObject` component — the kinematic state of one body. -/
structure VerletObject where
  position_current : Vec2
  position_old : Vec2
  acceleration : Vec2

/-- The `Ball` component — the radius of one body. -/
structure Ball where
  radius : ℝ

/-- One spawned entity: its id and its two components. -/
structure BallEnt where
  id : Nat
  vo : VerletObject
  ball : Ball

/-- Modelled from the spec: the quadtree entry list — the index is a
mapping from handle to bounding rectangle; `entries()` traverses it. -/
abbrev Quadtree := List (Nat × Rect)

/-- The simulation state: ECS body storage plus the index singleton. -/
structure World where
  bodies : List BallEnt
  quadtree : Quadtree

def World.empty : World := ⟨[], []⟩

/-- Hard stops of a step: an `unwrap` panic on a handle with no body, or
the NaN produced by normalizing a zero separation vector. -/
inductive StepError where
  | missingBody : StepError
  | degenerateNormalize : StepError

/-- Lookup `balls.get(entity)` — first body whose id matches the handle. -/
def getBody (h : Nat) : List BallEnt → Option BallEnt
  | [] => none
  | b :: bs => if b.id = h then some b else getBody h bs

/-- Write `balls.get_mut(entity).unwrap().position_current = p` — overwrite the
position of the body behind a handle; a missing body is a panic. -/
def setPos (h : Nat) (p : Vec2) : List BallEnt → Except StepError (List BallEnt)
  | [] => .error .missingBody
  | b :: bs =>
    if b.id = h then
      .ok ({ b with vo := { b.vo with position_current := p } } :: bs)
    else
      match setPos h p bs with
      | .error e => .error e
      | .ok bs2 => .ok (b :: bs2)

/-- Effectful map over a list, short-circuiting on the first error (the
shape of a Rust `for` loop of fallible body over `entries()`). -/
def mapExcept (f : α → Except StepError β) : List α → Except StepError (List β)
  | [] => .ok []
  | a :: l =>
    match f a with
    | .error e => .error e
    | .ok b =>
      match mapExcept f l with
      | .error e => .error e
      | .ok bs => .ok (b :: bs)

/-- Effectful left fold, short-circuiting on the first error. -/
def foldExcept (f : β → α → Except StepError β) (b : β) : List α → Except StepError β
  | [] => .ok b
  | a :: l =>
    match f b a with
    | .error e => .error e
    | .ok b2 => foldExcept f b2 l

/-- Modelled from the spec: `get_overlapped(query_rect)` returns every
entry handle whose stored rectangle intersects the query rectangle. -/
def get_overlapped (qt : Quadtree) (q : Rect) : List Nat :=
  (qt.filter fun e => Rect.overlaps e.2 q).map Prod.fst

/-- The gravity line of `apply_gravity`: `acceleration.y += GRAVITY`. -/
def gravBody (b : BallEnt) : BallEnt :=
  { b with vo := { b.vo with acceleration := ⟨b.vo.acceleration.x, b.vo.acceleration.y + GRAVITY⟩ } }

/-- Source `fn apply_gravity` — add `GRAVITY` to every body's `acceleration.y`. -/
def apply_gravity (bs : List BallEnt) : List BallEnt := bs.map gravBody

/-- The loop body of `fn update_position`, statement for statement:
read velocity and acceleration, overwrite `position_old`, increment
`position_current`, reset `acceleration`. -/
def integrateBody (dt : ℝ) (b : BallEnt) : BallEnt :=
  let velocity := b.vo.position_current - b.vo.position_old
  let acc := b.vo.acceleration
  let vo1 := { b.vo with position_old := b.vo.position_current }
  let vo2 := { vo1 with position_current := vo1.position_current + velocity + acc * dt * dt }
  { b with vo := { vo2 with acceleration := Vec2.zero } }

/-- Source `fn update_position` — Verlet integration of every body. -/
def update_position (dt : ℝ) (bs : List BallEnt) : List BallEnt := bs.map (integrateBody dt)

/-- The loop body of `fn solve_constraints`: the four sequential
componentwise clamps against the arena, in source order (x low, x high,
y low, y high), writing only `position_current`. -/
def constrainBody (b : BallEnt) : BallEnt :=
  let r := b.ball.radius
  let p := b.vo.position_current
  let px0 := if p.x - r < ARENA.min.x then ARENA.min.x + r else p.x
  let px := if px0 + r > ARENA.min.x + ARENA.width then ARENA.min.x + ARENA.width - r else px0
  let py0 := if p.y - r < ARENA.min.y then ARENA.min.y + r else p.y
  let py := if py0 + r > ARENA.min.y + ARENA.height then ARENA.min.y + ARENA.height - r else py0
  { b with vo := { b.vo with position_current := ⟨px, py⟩ } }

/-- Source `fn solve_constraints` — clamp every body into the arena. -/
def solve_constraints (bs : List BallEnt) : List BallEnt := bs.map constrainBody

/-- The loop body of `fn update_quadtree`: look the entry's handle up in
body storage (`unwrap` — a missing body is a panic) and rebuild its
rectangle centered at `position_current` with extents `radius * 2`. -/
def resyncEntry (bs : List BallEnt) (e : Nat × Rect) : Except StepError (Nat × Rect) :=
  match getBody e.1 bs with
  | none => .error .missingBody
  | some b =>
    .ok (e.1, Rect.new_centered b.vo.position_current.x b.vo.position_current.y
          (b.ball.radius * 2) (b.ball.radius * 2))

/-- Source `fn update_quadtree` — `move_entry` every index entry to the box
centered on its body's current position with side `2 × radius`. -/
def update_quadtree (qt : Quadtree) (bs : List BallEnt) : Except StepError Quadtree :=
  mapExcept (resyncEntry bs) qt

/-- The inner candidate loop body of `fn solve_colisions`: skip the body
itself, look the candidate up (`unwrap`), and when the centers are
closer than the radius sum displace the running new position by
`-normalize(dist) * overlap / 2`.  `dist.normalize()` on the zero
vector yields NaN in Rust; that outcome is modelled as the
`degenerateNormalize` error. -/
def collideStep (bs : List BallEnt) (me : BallEnt) (np : Vec2) (otherId : Nat) :
    Except StepError Vec2 :=
  if otherId = me.id then .ok np
  else
    match getBody otherId bs with
    | none => .error .missingBody
    | some other =>
      let dist := other.vo.position_current - me.vo.position_current
      if dist.length < me.ball.radius + other.ball.radius then
        if dist = Vec2.zero then .error .degenerateNormalize
        else
          let overlap := me.ball.radius + other.ball.radius - dist.length
          .ok (np - dist.normalize * (overlap / 2))
      else .ok np

/-- The outer loop body of `fn solve_colisions`'s first pass: for one
index entry, fold the displacement over all overlap candidates returned
by the index for the entry's stored rectangle, starting from the body's
observed `position_current`. -/
def entryNewPos (bs : List BallEnt) (qt : Quadtree) (e : Nat × Rect) :
    Except StepError (Nat × Vec2) :=
  match getBody e.1 bs with
  | none => .error .missingBody
  | some me =>
    match foldExcept (collideStep bs me) me.vo.position_current (get_overlapped qt e.2) with
    | .error err => .error err
    | .ok np => .ok (e.1, np)

/-- The second pass of `fn solve_colisions`: write each computed new
position back through its handle (`get_mut` + `unwrap`). -/
def applyNewPositions (nps : List (Nat × Vec2)) (bs : List BallEnt) :
    Except StepError (List BallEnt) :=
  foldExcept (fun cur hp => setPos hp.1 hp.2 cur) bs nps

/-- Source `fn solve_colisions` — compute every body's corrected position from
the positions observed at the start of the pass, then apply them all. -/
def solve_colisions (bs : List BallEnt) (qt : Quadtree) : Except StepError (List BallEnt) :=
  match mapExcept (entryNewPos bs qt) qt with
  | .error e => .error e
  | .ok new_positions => applyNewPositions new_positions bs

/-- One iteration of the substep loop in `fn update_physics`:
gravity, integration, index resync, collision resolution, boundary
constraints, in source order. -/
def substep (sub_dt : ℝ) (w : World) : Except StepError World :=
  let bodies1 := apply_gravity w.bodies
  let bodies2 := update_position sub_dt bodies1
  match update_quadtree w.quadtree bodies2 with
  | .error e => .error e
  | .ok qt =>
    match solve_colisions bodies2 qt with
    | .error e => .error e
    | .ok bodies3 => .ok ⟨solve_constraints bodies3, qt⟩

/-- The `for _ in 0..num_substeps` loop of `fn update_physics`. -/
def loopSubsteps (sub_dt : ℝ) : Nat → World → Except StepError World
  | 0, w => .ok w
  | n + 1, w =>
    match substep sub_dt w with
    | .error e => .error e
    | .ok w2 => loopSubsteps sub_dt n w2

/-- Source `fn update_physics` — `sub_dt = dt / 5`, then five substeps. -/
def update_physics (dt : ℝ) (w : World) : Except StepError World :=
  let sub_dt := dt / 5
  loopSubsteps sub_dt 5 w

/-- Source `fn spawn_ball` — the core part of a spawn request: `radius` is the
uniform sample `rr ∈ [0,1)` mapped through `* 10 + 5`; the body starts
with `position_current` at the default `Vec2::ZERO`, `position_old`
randomized to `(rx, ry)` with `rx, ry ∈ [0,1)`, zero acceleration; the
index receives a box built by `Rect::new_centered(0, 0, radius / 2,
radius / 2)`.  The fresh entity id allocated by the ECS is passed in
explicitly. -/
def spawn_ball (id : Nat) (rx ry rr : ℝ) (w : World) : World :=
  let radius := rr * 10 + 5
  let b : BallEnt :=
    { id := id
      vo := { position_current := Vec2.zero, position_old := ⟨rx, ry⟩, acceleration := Vec2.zero }
      ball := { radius := radius } }
  { bodies := w.bodies ++ [b]
    quadtree := w.quadtree ++ [(id, Rect.new_centered 0 0 (radius / 2) (radius / 2))] }

/-- The center of the arena rectangle. -/
def arenaCenter : Vec2 := ⟨(ARENA.min.x + ARENA.max.x) / 2, (ARENA.min.y + ARENA.max.y) / 2⟩

/-- Gravity followed by Verlet integration — the prefix of a substep that
acts on a body when no collision and no boundary clamp engages. -/
def gravInt (dt : ℝ) (bs : List BallEnt) : List BallEnt := update_position dt (apply_gravity bs)

/-- C1: `update_physics` computes `sub_dt = frame_dt / 5` and runs exactly
five substeps, each being the strict sequence gravity → Verlet
integration → index resynchronization → collision resolution → boundary
clamping, with no reordering. -/
theorem c1_substep_structure (dt : ℝ) (w : World) :
    update_physics dt w =
      (match substep (dt / 5) w with
       | .error e => .error e
       | .ok w1 =>
         match substep (dt / 5) w1 with
         | .error e => .error e
         | .ok w2 =>
           match substep (dt / 5) w2 with
           | .error e => .error e
           | .ok w3 =>
             match substep (dt / 5) w3 with
             | .error e => .error e
             | .ok w4 =>
               match substep (dt / 5) w4 with
               | .error e => .error e
               | .ok w5 => .ok w5) ∧
    ∀ s : ℝ, ∀ w0 : World, substep s w0 =
      match update_quadtree w0.quadtree (update_position s (apply_gravity w0.bodies)) with
      | .error e => .error e
      | .ok qt =>
        match solve_colisions (update_position s (apply_gravity w0.bodies)) qt with
        | .error e => .error e
        | .ok bs => .ok ⟨solve_constraints bs, qt⟩ := by
  constructor
  · show loopSubsteps (dt / 5) 5 w = _
    cases h1 : substep (dt / 5) w with
    | error e => simp [loopSubsteps, h1]
    | ok w1 =>
      cases h2 : substep (dt / 5) w1 with
      | error e => simp [loopSubsteps, h1, h2]
      | ok w2 =>
        cases h3 : substep (dt / 5) w2 with
        | error e => simp [loopSubsteps, h1, h2, h3]
        | ok w3 =>
          cases h4 : substep (dt / 5) w3 with
          | error e => simp [loopSubsteps, h1, h2, h3, h4]
          | ok w4 =>
            cases h5 : substep (dt / 5) w4 with
            | error e => simp [loopSubsteps, h1, h2, h3, h4, h5]
            | ok w5 => simp [loopSubsteps, h1, h2, h3, h4, h5]
  · intro s w0
    rfl

/-- C6: the integration phase applies to every body exactly the
Störmer-Verlet update: the new `position_current` is the old one plus
the implicit velocity `position_current - position_old` plus
`acceleration * dt²`, the new `position_old` is the old
`position_current`, and the acceleration is reset to zero. -/
theorem c6_verlet_integration (dt : ℝ) (bs : List BallEnt) :
    update_position dt bs = bs.map (fun b =>
      { b with vo :=
          { position_current :=
              b.vo.position_current + (b.vo.position_current - b.vo.position_old)
                + b.vo.acceleration * dt * dt
            position_old := b.vo.position_current
            acceleration := Vec2.zero } }) := rfl

/-- C10: the physics step is a deterministic function of the body states,
the index contents and the frame time — equal inputs give equal
outputs, and no other input enters any phase. -/
theorem c10_determinism (dt1 dt2 : ℝ) (w1 w2 : World)
    (hb : w1.bodies = w2.bodies) (hq : w1.quadtree = w2.quadtree) (hdt : dt1 = dt2) :
    update_physics dt1 w1 = update_physics dt2 w2 := by
  cases w1
  cases w2
  cases hb
  cases hq
  cases hdt
  rfl

theorem c10_determinism_witness :
    update_physics 1 ⟨[⟨0, ⟨⟨1, 2⟩, ⟨1, 2⟩, ⟨0, 0⟩⟩, ⟨5⟩⟩], []⟩ =
      update_physics 1 ⟨[⟨0, ⟨⟨1, 2⟩, ⟨1, 2⟩, ⟨0, 0⟩⟩, ⟨5⟩⟩], []⟩ :=
  c10_determinism 1 1 _ _ rfl rfl rfl

/-- C2 (evidence of the divergence): two bodies spawned at the exact same
position with coinciding jitter draws make the first substep reach
`dist.normalize()` with `dist` the zero vector — the code has no
fallback direction, so the step produces NaN (modelled by the
`degenerateNormalize` error) instead of the fallback the spec
requires. -/
theorem c2_nan_at_coincident_spawn :
    update_physics 0
      ⟨[⟨0, ⟨⟨0, 0⟩, ⟨0, 0⟩, ⟨0, 0⟩⟩, ⟨5⟩⟩, ⟨1, ⟨⟨0, 0⟩, ⟨0, 0⟩, ⟨0, 0⟩⟩, ⟨5⟩⟩],
       [(0, Rect.new_centered 0 0 (5 / 2) (5 / 2)), (1, Rect.new_centered 0 0 (5 / 2) (5 / 2))]⟩
      = .error .degenerateNormalize := by
  norm_num [update_physics, loopSubsteps, substep, apply_gravity, gravBody, update_position,
    integrateBody, update_quadtree, mapExcept, resyncEntry, getBody, solve_colisions,
    entryNewPos, get_overlapped, Rect.overlaps, Rect.new_centered, collideStep, foldExcept,
    Vec2.length, Vec2.zero, GRAVITY, List.filter_cons, decide_eq_true_eq, Vec2.mk.injEq]

@[simp] theorem gravBody_id (b : BallEnt) : (gravBody b).id = b.id := rfl

@[simp] theorem gravBody_ball (b : BallEnt) : (gravBody b).ball = b.ball := rfl

@[simp] theorem integrateBody_id (dt : ℝ) (b : BallEnt) : (integrateBody dt b).id = b.id := rfl

@[simp] theorem integrateBody_ball (dt : ℝ) (b : BallEnt) : (integrateBody dt b).ball = b.ball := rfl

@[simp] theorem constrainBody_id (b : BallEnt) : (constrainBody b).id = b.id := rfl

@[simp] theorem constrainBody_ball (b : BallEnt) : (constrainBody b).ball = b.ball := rfl

theorem loopSubsteps_succ (s : ℝ) (n : ℕ) (w : World) :
    loopSubsteps s (n + 1) w =
      match substep s w with
      | .error e => .error e
      | .ok w2 => loopSubsteps s n w2 := rfl

theorem mapExcept_ok_mem (f : α → Except StepError β) (a : α) :
    ∀ (l : List α) (l2 : List β), mapExcept f l = .ok l2 → a ∈ l → ∃ b, f a = .ok b ∧ b ∈ l2 := by
  intro l
  induction l with
  | nil => intro l2 _ ha; cases ha
  | cons hd tl ih =>
    intro l2 hok ha
    unfold mapExcept at hok
    cases h1 : f hd with
    | error e => simp [h1] at hok
    | ok b =>
      cases h2 : mapExcept f tl with
      | error e => simp [h1, h2] at hok
      | ok bs =>
        simp [h1, h2] at hok
        subst hok
        rcases List.mem_cons.mp ha with rfl | hmem
        · exact ⟨b, h1, List.mem_cons_self _ _⟩
        · obtain ⟨c, hc1, hc2⟩ := ih bs h2 hmem
          exact ⟨c, hc1, List.mem_cons_of_mem _ hc2⟩

theorem getBody_map (f : BallEnt → BallEnt) (hf : ∀ b, (f b).id = b.id) (h : Nat) :
    ∀ bs : List BallEnt, getBody h (bs.map f) = (getBody h bs).map f := by
  intro bs
  induction bs with
  | nil => rfl
  | cons b tl ih =>
    by_cases hb : b.id = h
    · simp [getBody, hf, hb]
    · simp [getBody, hf, hb, ih]

theorem update_quadtree_not_ok (qt : Quadtree) (bs : List BallEnt) (h : Nat) (r : Rect)
    (hmem : (h, r) ∈ qt) (hnone : getBody h bs = none) :
    ∀ qt2, update_quadtree qt bs ≠ .ok qt2 := by
  intro qt2 hok
  obtain ⟨p, hp, _⟩ := mapExcept_ok_mem _ (h, r) _ _ hok hmem
  simp [resyncEntry, hnone] at hp

theorem solve_colisions_not_ok (qt : Quadtree) (bs : List BallEnt) (h : Nat) (r : Rect)
    (hmem : (h, r) ∈ qt) (hnone : getBody h bs = none) :
    ∀ bs2, solve_colisions bs qt ≠ .ok bs2 := by
  intro bs2 hok
  unfold solve_colisions at hok
  cases hm : mapExcept (entryNewPos bs qt) qt with
  | error e => rw [hm] at hok; cases hok
  | ok nps =>
    obtain ⟨p, hp, _⟩ := mapExcept_ok_mem _ (h, r) _ _ hm hmem
    simp [entryNewPos, hnone] at hp

/-- C9: a handle stored in the index with no corresponding body aborts the
step: the index-resynchronization pass and the collision-resolution
pass both terminate with a hard stop (the modelled `unwrap` panic)
rather than skipping the entry, and consequently `update_physics` never
returns a successor state. -/
theorem c9_missing_body_is_fatal (dt : ℝ) (w : World) (h : Nat) (r : Rect)
    (hmem : (h, r) ∈ w.quadtree) (hnone : getBody h w.bodies = none) :
    (∀ qt2, update_quadtree w.quadtree w.bodies ≠ .ok qt2) ∧
    (∀ bs2, solve_colisions w.bodies w.quadtree ≠ .ok bs2) ∧
    (∀ w2, update_physics dt w ≠ .ok w2) := by
  refine ⟨update_quadtree_not_ok _ _ _ _ hmem hnone,
          solve_colisions_not_ok _ _ _ _ hmem hnone, ?_⟩
  intro w2 hok
  unfold update_physics at hok
  rw [loopSubsteps_succ] at hok
  have hnone2 : getBody h (update_position (dt / 5) (apply_gravity w.bodies)) = none := by
    unfold update_position apply_gravity
    rw [getBody_map (integrateBody (dt / 5)) (fun b => rfl),
        getBody_map gravBody (fun b => rfl), hnone]
    rfl
  cases hs : substep (dt / 5) w with
  | error e => rw [hs] at hok; cases hok
  | ok w1 =>
    simp only [substep] at hs
    cases huq : update_quadtree w.quadtree (update_position (dt / 5) (apply_gravity w.bodies)) with
    | error e => rw [huq] at hs; cases hs
    | ok qt => exact update_quadtree_not_ok _ _ _ _ hmem hnone2 qt huq

theorem c9_missing_body_is_fatal_witness :
    ((0, Rect.new_centered 0 0 1 1) ∈ ([(0, Rect.new_centered 0 0 1 1)] : Quadtree)) ∧
    getBody 0 ([] : List BallEnt) = none ∧
    ∀ w2, update_physics 1 ⟨[], [(0, Rect.new_centered 0 0 1 1)]⟩ ≠ .ok w2 :=
  ⟨List.mem_singleton.mpr rfl, rfl,
    (c9_missing_body_is_fatal 1 ⟨[], [(0, Rect.new_centered 0 0 1 1)]⟩ 0
      (Rect.new_centered 0 0 1 1) (List.mem_singleton.mpr rfl) rfl).2.2⟩

/-- C3 (counterexample to the claim as stated): a spawn with the uniform
draw `rr = 1/2` creates a body of radius 10, but the box inserted into
the index at spawn has side `radius / 2 = 5`, not `2 × radius = 20`. -/
theorem c3_spawn_box_counterexample :
    ((spawn_ball 0 0 0 (2⁻¹) World.empty).bodies.map fun b => b.ball.radius) = [10] ∧
    ((spawn_ball 0 0 0 (2⁻¹) World.empty).quadtree.map fun e => e.2.w) = [5] ∧
    (5 : ℝ) ≠ 2 * 10 := by
  refine ⟨?_, ?_, by norm_num⟩ <;>
    norm_num [spawn_ball, World.empty, Rect.new_centered]

/-- C3 (amended): the box inserted at spawn is the square of side
`radius / 2` centered at the spawn point — not `2 × radius`; the
index-resynchronization phase then stores, for every entry, the square
of side `2 × radius` centered at its body's `position_current`, so the
claimed geometry holds from the first substep onward. -/
theorem c3_index_box_amended :
    (∀ (i : Nat) (rx ry rr : ℝ) (w : World),
      (spawn_ball i rx ry rr w).quadtree =
        w.quadtree ++ [(i, Rect.new_centered 0 0 ((rr * 10 + 5) / 2) ((rr * 10 + 5) / 2))]) ∧
    (∀ (qt qt2 : Quadtree) (bs : List BallEnt), update_quadtree qt bs = .ok qt2 →
      ∀ e ∈ qt, ∃ b, getBody e.1 bs = some b ∧
        (e.1, Rect.new_centered b.vo.position_current.x b.vo.position_current.y
          (b.ball.radius * 2) (b.ball.radius * 2)) ∈ qt2) := by
  constructor
  · intro i rx ry rr w
    rfl
  · intro qt qt2 bs hok e he
    obtain ⟨p, hp, hpmem⟩ := mapExcept_ok_mem _ e _ _ hok he
    cases hg : getBody e.1 bs with
    | none => simp [resyncEntry, hg] at hp
    | some b =>
      simp [resyncEntry, hg] at hp
      exact ⟨b, rfl, hp ▸ hpmem⟩

theorem c3_index_box_amended_witness :
    (spawn_ball 0 0 0 0 World.empty).quadtree =
      World.empty.quadtree ++ [(0, Rect.new_centered 0 0 ((0 * 10 + 5) / 2) ((0 * 10 + 5) / 2))] ∧
    ∀ e ∈ ([(0, Rect.new_centered 0 0 1 1)] : Quadtree), ∃ b,
      getBody e.1 [(⟨0, ⟨⟨0, 0⟩, ⟨0, 0⟩, ⟨0, 0⟩⟩, ⟨5⟩⟩ : BallEnt)] = some b ∧
      (e.1, Rect.new_centered b.vo.position_current.x b.vo.position_current.y
        (b.ball.radius * 2) (b.ball.radius * 2)) ∈
          [(0, Rect.new_centered 0 0 (5 * 2) (5 * 2))] :=
  ⟨c3_index_box_amended.1 0 0 0 0 World.empty,
   c3_index_box_amended.2 _ _ _ (by norm_num [update_quadtree, mapExcept, resyncEntry, getBody])⟩

/-- The body's circle lies entirely inside the arena: the componentwise
check of the position against the min/max corners adjusted by the
radius. -/
def inArena (b : BallEnt) : Prop :=
  ARENA.min.x + b.ball.radius ≤ b.vo.position_current.x ∧
  b.vo.position_current.x ≤ ARENA.max.x - b.ball.radius ∧
  ARENA.min.y + b.ball.radius ≤ b.vo.position_current.y ∧
  b.vo.position_current.y ≤ ARENA.max.y - b.ball.radius

/-- Every body's diameter fits in the smaller arena dimension (the arena
is 1800 × 1000; spawned radii lie in [5, 15), far below this). -/
def radiusOK (bs : List BallEnt) : Prop := ∀ b ∈ bs, 2 * b.ball.radius ≤ 1000

theorem constrainBody_inArena (b : BallEnt) (hr : 2 * b.ball.radius ≤ 1000) :
    inArena (constrainBody b) := by
  simp only [inArena, constrainBody, ARENA, BRect.width, BRect.height]
  split_ifs <;> refine ⟨?_, ?_, ?_, ?_⟩ <;> linarith

theorem solve_constraints_inArena (bs : List BallEnt) (hr : radiusOK bs) :
    ∀ b ∈ solve_constraints bs, inArena b := by
  intro b hb
  obtain ⟨b0, hb0, rfl⟩ := List.mem_map.mp hb
  exact constrainBody_inArena b0 (hr b0 hb0)

theorem radiusOK_map (f : BallEnt → BallEnt) (hf : ∀ b, (f b).ball = b.ball)
    (bs : List BallEnt) (h : radiusOK bs) : radiusOK (bs.map f) := by
  intro b hb
  obtain ⟨b0, hb0, rfl⟩ := List.mem_map.mp hb
  rw [hf]
  exact h b0 hb0

theorem setPos_ok_mem (h : Nat) (p : Vec2) :
    ∀ (bs bs2 : List BallEnt), setPos h p bs = .ok bs2 →
      ∀ b2 ∈ bs2, ∃ b ∈ bs, b2.id = b.id ∧ b2.ball = b.ball := by
  intro bs
  induction bs with
  | nil => intro bs2 hok; cases hok
  | cons b tl ih =>
    intro bs2 hok
    unfold setPos at hok
    by_cases hb : b.id = h
    · rw [if_pos hb, Except.ok.injEq] at hok
      subst hok
      intro b2 hb2
      rcases List.mem_cons.mp hb2 with rfl | hmem
      · exact ⟨b, List.mem_cons_self _ _, rfl, rfl⟩
      · exact ⟨b2, List.mem_cons_of_mem _ hmem, rfl, rfl⟩
    · rw [if_neg hb] at hok
      cases hrec : setPos h p tl with
      | error e => rw [hrec] at hok; cases hok
      | ok tl2 =>
        rw [hrec] at hok
        rw [Except.ok.injEq] at hok
        subst hok
        intro b2 hb2
        rcases List.mem_cons.mp hb2 with rfl | hmem
        · exact ⟨b2, List.mem_cons_self _ _, rfl, rfl⟩
        · obtain ⟨b0, hb0, h1, h2⟩ := ih tl2 hrec b2 hmem
          exact ⟨b0, List.mem_cons_of_mem _ hb0, h1, h2⟩

theorem applyNewPositions_ok_mem :
    ∀ (nps : List (Nat × Vec2)) (bs bs2 : List BallEnt), applyNewPositions nps bs = .ok bs2 →
      ∀ b2 ∈ bs2, ∃ b ∈ bs, b2.id = b.id ∧ b2.ball = b.ball := by
  intro nps
  induction nps with
  | nil =>
    intro bs bs2 hok b2 hb2
    rw [applyNewPositions, foldExcept, Except.ok.injEq] at hok
    subst hok
    exact ⟨b2, hb2, rfl, rfl⟩
  | cons hp tl ih =>
    intro bs bs2 hok
    rw [applyNewPositions, foldExcept] at hok
    cases hsp : setPos hp.1 hp.2 bs with
    | error e => rw [hsp] at hok; cases hok
    | ok bs1 =>
      rw [hsp] at hok
      intro b2 hb2
      obtain ⟨b1, hb1, h1, h2⟩ := ih bs1 bs2 hok b2 hb2
      obtain ⟨b0, hb0, h3, h4⟩ := setPos_ok_mem hp.1 hp.2 bs bs1 hsp b1 hb1
      exact ⟨b0, hb0, h1.trans h3, h2.trans h4⟩

theorem solve_colisions_ok_mem (bs : List BallEnt) (qt : Quadtree) (bs2 : List BallEnt)
    (hok : solve_colisions bs qt = .ok bs2) :
    ∀ b2 ∈ bs2, ∃ b ∈ bs, b2.id = b.id ∧ b2.ball = b.ball := by
  unfold solve_colisions at hok
  cases hm : mapExcept (entryNewPos bs qt) qt with
  | error e => rw [hm] at hok; cases hok
  | ok nps =>
    rw [hm] at hok
    exact applyNewPositions_ok_mem nps bs bs2 hok

theorem substep_ok_props (s : ℝ) (w w2 : World) (hok : substep s w = .ok w2)
    (hr : radiusOK w.bodies) : radiusOK w2.bodies ∧ ∀ b ∈ w2.bodies, inArena b := by
  simp only [substep] at hok
  cases huq : update_quadtree w.quadtree (update_position s (apply_gravity w.bodies)) with
  | error e => rw [huq] at hok; cases hok
  | ok qt =>
    simp only [huq] at hok
    cases hsc : solve_colisions (update_position s (apply_gravity w.bodies)) qt with
    | error e => simp only [hsc] at hok; cases hok
    | ok bodies3 =>
      simp only [hsc, Except.ok.injEq] at hok
      subst hok
      have hr2 : radiusOK (update_position s (apply_gravity w.bodies)) := by
        unfold update_position apply_gravity
        exact radiusOK_map (integrateBody s) (fun b => rfl) _
          (radiusOK_map gravBody (fun b => rfl) _ hr)
      have hr3 : radiusOK bodies3 := by
        intro b hb
        obtain ⟨b0, hb0, _, h2⟩ := solve_colisions_ok_mem _ _ _ hsc b hb
        rw [h2]
        exact hr2 b0 hb0
      refine ⟨?_, ?_⟩
      · show radiusOK (solve_constraints bodies3)
        exact radiusOK_map constrainBody (fun b => rfl) bodies3 hr3
      · show ∀ b ∈ solve_constraints bodies3, inArena b
        exact solve_constraints_inArena _ hr3

theorem loopSubsteps_ok_props (s : ℝ) :
    ∀ (n : ℕ) (w w2 : World), 0 < n → radiusOK w.bodies → loopSubsteps s n w = .ok w2 →
      radiusOK w2.bodies ∧ ∀ b ∈ w2.bodies, inArena b := by
  intro n
  induction n with
  | zero => intro w w2 hn; cases hn
  | succ m ih =>
    intro w w2 _ hr hok
    rw [loopSubsteps_succ] at hok
    cases hs : substep s w with
    | error e => rw [hs] at hok; cases hok
    | ok w1 =>
      rw [hs] at hok
      have h1 := substep_ok_props s w w1 hs hr
      cases m with
      | zero =>
        simp only [loopSubsteps, Except.ok.injEq] at hok
        subst hok
        exact h1
      | succ k => exact ih w1 w2 (Nat.succ_pos k) h1.1 hok

/-- C4: after a completed `step`, every body's circle lies entirely inside
the arena — componentwise `min + r ≤ position ≤ max - r` — because the
boundary-clamp phase ends every substep; the clamps only rewrite
`position_current`, never the position history (no velocity inversion),
which the second conjunct records. -/
theorem c4_boundary_containment (dt : ℝ) (w w2 : World)
    (hr : ∀ b ∈ w.bodies, 2 * b.ball.radius ≤ 1000)
    (hok : update_physics dt w = .ok w2) :
    (∀ b ∈ w2.bodies,
      ARENA.min.x + b.ball.radius ≤ b.vo.position_current.x ∧
      b.vo.position_current.x ≤ ARENA.max.x - b.ball.radius ∧
      ARENA.min.y + b.ball.radius ≤ b.vo.position_current.y ∧
      b.vo.position_current.y ≤ ARENA.max.y - b.ball.radius) ∧
    ∀ bs : List BallEnt,
      (solve_constraints bs).map (fun b => b.vo.position_old) =
        bs.map (fun b => b.vo.position_old) := by
  constructor
  · exact (loopSubsteps_ok_props (dt / 5) 5 w w2 (by norm_num) hr hok).2
  · intro bs
    rw [solve_constraints, List.map_map]
    rfl

theorem c4_boundary_containment_witness :
    (∀ b ∈ ([⟨0, ⟨⟨0, 0⟩, ⟨0, 0⟩, ⟨0, 0⟩⟩, ⟨5⟩⟩] : List BallEnt), 2 * b.ball.radius ≤ 1000) ∧
    update_physics 0 ⟨[⟨0, ⟨⟨0, 0⟩, ⟨0, 0⟩, ⟨0, 0⟩⟩, ⟨5⟩⟩], [(0, Rect.new_centered 0 0 10 10)]⟩ =
      .ok ⟨[⟨0, ⟨⟨0, 0⟩, ⟨0, 0⟩, ⟨0, 0⟩⟩, ⟨5⟩⟩], [(0, Rect.new_centered 0 0 10 10)]⟩ ∧
    ∀ b ∈ ([⟨0, ⟨⟨0, 0⟩, ⟨0, 0⟩, ⟨0, 0⟩⟩, ⟨5⟩⟩] : List BallEnt),
      ARENA.min.x + b.ball.radius ≤ b.vo.position_current.x ∧
      b.vo.position_current.x ≤ ARENA.max.x - b.ball.radius ∧
      ARENA.min.y + b.ball.radius ≤ b.vo.position_current.y ∧
      b.vo.position_current.y ≤ ARENA.max.y - b.ball.radius := by
  have hr : ∀ b ∈ ([⟨0, ⟨⟨0, 0⟩, ⟨0, 0⟩, ⟨0, 0⟩⟩, ⟨5⟩⟩] : List BallEnt),
      2 * b.ball.radius ≤ 1000 := by
    intro b hb
    rw [List.mem_singleton] at hb
    subst hb
    norm_num
  have hok : update_physics 0
      ⟨[⟨0, ⟨⟨0, 0⟩, ⟨0, 0⟩, ⟨0, 0⟩⟩, ⟨5⟩⟩], [(0, Rect.new_centered 0 0 10 10)]⟩ =
      .ok ⟨[⟨0, ⟨⟨0, 0⟩, ⟨0, 0⟩, ⟨0, 0⟩⟩, ⟨5⟩⟩], [(0, Rect.new_centered 0 0 10 10)]⟩ := by
    norm_num [update_physics, loopSubsteps, substep, apply_gravity, gravBody, update_position,
      integrateBody, update_quadtree, mapExcept, resyncEntry, getBody, solve_colisions,
      entryNewPos, get_overlapped, Rect.overlaps, Rect.new_centered, collideStep, foldExcept,
      applyNewPositions, setPos, solve_constraints, constrainBody, Vec2.length, Vec2.zero,
      GRAVITY, ARENA, BRect.width, BRect.height, List.filter_cons, decide_eq_true_eq,
      Vec2.mk.injEq]
  exact ⟨hr, hok, (c4_boundary_containment 0 _ _ hr hok).1⟩

theorem setPos_getBody_other (h h2 : Nat) (p : Vec2) (hne : h2 ≠ h) :
    ∀ bs bs2, setPos h p bs = .ok bs2 → getBody h2 bs2 = getBody h2 bs := by
  intro bs
  induction bs with
  | nil => intro bs2 hok; cases hok
  | cons b tl ih =>
    intro bs2 hok
    unfold setPos at hok
    by_cases hb : b.id = h
    · rw [if_pos hb, Except.ok.injEq] at hok
      subst hok
      have hb2 : ¬ b.id = h2 := fun hc => hne (hc ▸ hb ▸ rfl)
      show getBody h2 ({ b with vo := { b.vo with position_current := p } } :: tl) =
        getBody h2 (b :: tl)
      simp only [getBody]
      rw [if_neg hb2, if_neg hb2]
    · rw [if_neg hb] at hok
      cases hrec : setPos h p tl with
      | error e => rw [hrec] at hok; cases hok
      | ok tl2 =>
        rw [hrec, Except.ok.injEq] at hok
        subst hok
        by_cases hb2 : b.id = h2
        · simp only [getBody]
          rw [if_pos hb2, if_pos hb2]
        · simp only [getBody]
          rw [if_neg hb2, if_neg hb2]
          exact ih tl2 hrec

theorem setPos_getBody_same (h : Nat) (p : Vec2) :
    ∀ bs bs2 b, setPos h p bs = .ok bs2 → getBody h bs = some b →
      getBody h bs2 = some { b with vo := { b.vo with position_current := p } } := by
  intro bs
  induction bs with
  | nil => intro bs2 b hok; cases hok
  | cons hd tl ih =>
    intro bs2 b hok hget
    unfold setPos at hok
    unfold getBody at hget
    by_cases hb : hd.id = h
    · rw [if_pos hb, Except.ok.injEq] at hok
      rw [if_pos hb, Option.some.injEq] at hget
      subst hok
      subst hget
      simp only [getBody, hb, if_true, if_pos]
    · rw [if_neg hb] at hok
      rw [if_neg hb] at hget
      cases hrec : setPos h p tl with
      | error e => rw [hrec] at hok; cases hok
      | ok tl2 =>
        rw [hrec, Except.ok.injEq] at hok
        subst hok
        simp only [getBody, hb, if_neg, if_false]
        exact ih tl2 b hrec hget

theorem applyNewPositions_getBody_notmem :
    ∀ (nps : List (Nat × Vec2)) (bs bs2 : List BallEnt) (h : Nat),
      applyNewPositions nps bs = .ok bs2 → h ∉ nps.map Prod.fst →
      getBody h bs2 = getBody h bs := by
  intro nps
  induction nps with
  | nil =>
    intro bs bs2 h hok _
    rw [applyNewPositions, foldExcept, Except.ok.injEq] at hok
    subst hok
    rfl
  | cons hp tl ih =>
    intro bs bs2 h hok hnm
    rw [applyNewPositions, foldExcept] at hok
    cases hsp : setPos hp.1 hp.2 bs with
    | error e => rw [hsp] at hok; cases hok
    | ok bs1 =>
      rw [hsp] at hok
      rw [List.map_cons, List.mem_cons] at hnm
      push_neg at hnm
      rw [ih bs1 bs2 h hok hnm.2]
      exact setPos_getBody_other hp.1 h hp.2 hnm.1 bs bs1 hsp

theorem applyNewPositions_getBody_mem :
    ∀ (nps : List (Nat × Vec2)) (bs bs2 : List BallEnt),
      applyNewPositions nps bs = .ok bs2 → (nps.map Prod.fst).Nodup →
      ∀ hp ∈ nps, ∀ b, getBody hp.1 bs = some b →
        getBody hp.1 bs2 = some { b with vo := { b.vo with position_current := hp.2 } } := by
  intro nps
  induction nps with
  | nil => intro bs bs2 _ _ hp hmem; cases hmem
  | cons hp0 tl ih =>
    intro bs bs2 hok hnd hp hmem b hget
    rw [applyNewPositions, foldExcept] at hok
    cases hsp : setPos hp0.1 hp0.2 bs with
    | error e => rw [hsp] at hok; cases hok
    | ok bs1 =>
      rw [hsp] at hok
      rw [List.map_cons, List.nodup_cons] at hnd
      rcases List.mem_cons.mp hmem with rfl | hmem2
      · rw [applyNewPositions_getBody_notmem tl bs1 bs2 hp.1 hok hnd.1]
        exact setPos_getBody_same hp.1 hp.2 bs bs1 b hsp hget
      · have hne : hp.1 ≠ hp0.1 := by
          intro hc
          exact hnd.1 (hc ▸ List.mem_map_of_mem Prod.fst hmem2)
        have hget1 : getBody hp.1 bs1 = some b := by
          rw [setPos_getBody_other hp0.1 hp.1 hp0.2 hne bs bs1 hsp]
          exact hget
        exact ih bs1 bs2 hok hnd.2 hp hmem2 b hget1

theorem mapExcept_ok_keys (f : α → Except StepError β) (k1 : α → γ) (k2 : β → γ)
    (hf : ∀ a b, f a = .ok b → k2 b = k1 a) :
    ∀ (l : List α) (l2 : List β), mapExcept f l = .ok l2 → l2.map k2 = l.map k1 := by
  intro l
  induction l with
  | nil =>
    intro l2 hok
    rw [mapExcept, Except.ok.injEq] at hok
    subst hok
    rfl
  | cons hd tl ih =>
    intro l2 hok
    unfold mapExcept at hok
    cases h1 : f hd with
    | error e => rw [h1] at hok; cases hok
    | ok b =>
      rw [h1] at hok
      cases h2 : mapExcept f tl with
      | error e => rw [h2] at hok; cases hok
      | ok bs =>
        rw [h2, Except.ok.injEq] at hok
        subst hok
        rw [List.map_cons, List.map_cons, hf hd b h1, ih bs h2]

/-- C5: the collision pass is a frozen-snapshot, batched two-pass scheme:
each indexed body's final position equals the fold, over the overlap
candidates the index returns for its entry, of the per-pair rule
(skip self; displace only the current body by
`-normalize(dist) * overlap / 2` when `|dist| < r₁ + r₂`), computed
entirely from the positions observed before any write; the batched
second pass then stores exactly these values. -/
theorem c5_batched_frozen_snapshot (bs bs2 : List BallEnt) (qt : Quadtree)
    (hnodup : (qt.map Prod.fst).Nodup) (hok : solve_colisions bs qt = .ok bs2) :
    ∀ e ∈ qt, ∃ me np, getBody e.1 bs = some me ∧
      foldExcept (collideStep bs me) me.vo.position_current (get_overlapped qt e.2) = .ok np ∧
      getBody e.1 bs2 = some { me with vo := { me.vo with position_current := np } } := by
  unfold solve_colisions at hok
  cases hm : mapExcept (entryNewPos bs qt) qt with
  | error e => rw [hm] at hok; cases hok
  | ok nps =>
    simp only [hm] at hok
    have hkeys : nps.map Prod.fst = qt.map Prod.fst := by
      refine mapExcept_ok_keys _ Prod.fst Prod.fst ?_ _ _ hm
      intro a p hap
      unfold entryNewPos at hap
      cases hg : getBody a.1 bs with
      | none => simp only [hg] at hap; cases hap
      | some me =>
        simp only [hg] at hap
        cases hf : foldExcept (collideStep bs me) me.vo.position_current
            (get_overlapped qt a.2) with
        | error err => simp only [hf] at hap; cases hap
        | ok np =>
          simp only [hf, Except.ok.injEq] at hap
          subst hap
          rfl
    intro e he
    obtain ⟨p, hp, hpmem⟩ := mapExcept_ok_mem _ e _ _ hm he
    unfold entryNewPos at hp
    cases hg : getBody e.1 bs with
    | none => simp only [hg] at hp; cases hp
    | some me =>
      simp only [hg] at hp
      cases hf : foldExcept (collideStep bs me) me.vo.position_current
          (get_overlapped qt e.2) with
      | error err => simp only [hf] at hp; cases hp
      | ok np =>
        simp only [hf, Except.ok.injEq] at hp
        subst hp
        refine ⟨me, np, rfl, hf, ?_⟩
        exact applyNewPositions_getBody_mem nps bs bs2 hok (hkeys ▸ hnodup)
          (e.1, np) hpmem me hg

theorem c5_batched_frozen_snapshot_witness :
    (([(0, Rect.new_centered 0 0 10 10)] : Quadtree).map Prod.fst).Nodup ∧
    solve_colisions [⟨0, ⟨⟨0, 0⟩, ⟨0, 0⟩, ⟨0, 0⟩⟩, ⟨5⟩⟩] [(0, Rect.new_centered 0 0 10 10)] =
      .ok [⟨0, ⟨⟨0, 0⟩, ⟨0, 0⟩, ⟨0, 0⟩⟩, ⟨5⟩⟩] ∧
    ∀ e ∈ ([(0, Rect.new_centered 0 0 10 10)] : Quadtree), ∃ me np,
      getBody e.1 [(⟨0, ⟨⟨0, 0⟩, ⟨0, 0⟩, ⟨0, 0⟩⟩, ⟨5⟩⟩ : BallEnt)] = some me ∧
      foldExcept (collideStep [⟨0, ⟨⟨0, 0⟩, ⟨0, 0⟩, ⟨0, 0⟩⟩, ⟨5⟩⟩] me) me.vo.position_current
        (get_overlapped [(0, Rect.new_centered 0 0 10 10)] e.2) = .ok np ∧
      getBody e.1 [(⟨0, ⟨⟨0, 0⟩, ⟨0, 0⟩, ⟨0, 0⟩⟩, ⟨5⟩⟩ : BallEnt)] =
        some { me with vo := { me.vo with position_current := np } } := by
  have hnd : (([(0, Rect.new_centered 0 0 10 10)] : Quadtree).map Prod.fst).Nodup := by
    simp
  have hok : solve_colisions [(⟨0, ⟨⟨0, 0⟩, ⟨0, 0⟩, ⟨0, 0⟩⟩, ⟨5⟩⟩ : BallEnt)]
      [(0, Rect.new_centered 0 0 10 10)] = .ok [⟨0, ⟨⟨0, 0⟩, ⟨0, 0⟩, ⟨0, 0⟩⟩, ⟨5⟩⟩] := by
    norm_num [solve_colisions, mapExcept, entryNewPos, getBody, get_overlapped, Rect.overlaps,
      Rect.new_centered, collideStep, foldExcept, applyNewPositions, setPos,
      List.filter_cons, decide_eq_true_eq]
  exact ⟨hnd, hok, c5_batched_frozen_snapshot _ _ _ hnd hok⟩

theorem gravInt_iter_singleton (dt : ℝ) (n : ℕ) :
    ∀ b : BallEnt, (gravInt dt)^[n] [b] = [(fun x => integrateBody dt (gravBody x))^[n] b] := by
  induction n with
  | zero => intro b; rfl
  | succ m ih =>
    intro b
    rw [Function.iterate_succ_apply, Function.iterate_succ_apply]
    exact ih (integrateBody dt (gravBody b))

theorem freefall_closed (dt px py : ℝ) (r : Ball) (i : Nat) :
    ∀ n : ℕ, (fun x => integrateBody dt (gravBody x))^[n] ⟨i, ⟨⟨px, py⟩, ⟨px, py⟩, Vec2.zero⟩, r⟩ =
      ⟨i, ⟨⟨px, py + GRAVITY * (dt * dt) * (n * (n + 1) / 2)⟩,
           ⟨px, py + GRAVITY * (dt * dt) * (n * (n + 1) / 2 - n)⟩,
           Vec2.zero⟩, r⟩ := by
  intro n
  induction n with
  | zero =>
    simp only [Function.iterate_zero, id_eq, BallEnt.mk.injEq, VerletObject.mk.injEq,
      Vec2.mk.injEq, Nat.cast_zero]
    norm_num
  | succ m ih =>
    rw [Function.iterate_succ_apply', ih]
    simp only [integrateBody, gravBody, vec_mk_sub, vec_mk_add, vec_mk_smul,
      vec_zero_x, vec_zero_y, BallEnt.mk.injEq, VerletObject.mk.injEq, Vec2.mk.injEq,
      Nat.cast_succ]
    refine ⟨trivial, ⟨⟨?_, ?_⟩, ⟨?_, ?_⟩, trivial⟩, trivial⟩ <;> ring

/-- C7: a single body with zero initial velocity and zero initial
acceleration, advanced `N` times through gravity followed by Verlet
integration at substep `dt`, undergoes a vertical displacement within
`500·dt·T` of the closed-form free-fall displacement
`½·GRAVITY·T²` where `T = N·dt` — an error that vanishes as the substep
is refined. -/
theorem c7_free_fall_displacement (b : BallEnt) (dt : ℝ) (N : ℕ)
    (hpo : b.vo.position_old = b.vo.position_current)
    (hacc : b.vo.acceleration = Vec2.zero) (hdt : 0 ≤ dt) :
    ∀ c ∈ (gravInt dt)^[N] [b],
      |c.vo.position_current.y - b.vo.position_current.y - 2⁻¹ * GRAVITY * (N * dt) ^ 2| ≤
        500 * dt * (N * dt) := by
  obtain ⟨i, vo, r⟩ := b
  obtain ⟨pc, po, acc⟩ := vo
  obtain ⟨px, py⟩ := pc
  simp only at hpo hacc
  subst hpo
  subst hacc
  rw [gravInt_iter_singleton, freefall_closed]
  intro c hc
  rw [List.mem_singleton] at hc
  subst hc
  simp only [GRAVITY]
  have hN : (0:ℝ) ≤ (N:ℝ) := Nat.cast_nonneg N
  have hd2 : (0:ℝ) ≤ dt * dt := mul_nonneg hdt hdt
  rw [abs_le]
  constructor <;> nlinarith [mul_nonneg hN hd2]

theorem c7_free_fall_displacement_witness :
    ((⟨0, ⟨⟨0, 0⟩, ⟨0, 0⟩, ⟨0, 0⟩⟩, ⟨5⟩⟩ : BallEnt).vo.position_old =
      (⟨0, ⟨⟨0, 0⟩, ⟨0, 0⟩, ⟨0, 0⟩⟩, ⟨5⟩⟩ : BallEnt).vo.position_current) ∧
    ((⟨0, ⟨⟨0, 0⟩, ⟨0, 0⟩, ⟨0, 0⟩⟩, ⟨5⟩⟩ : BallEnt).vo.acceleration = Vec2.zero) ∧
    (0:ℝ) ≤ 1 ∧
    ∀ c ∈ (gravInt 1)^[1] [(⟨0, ⟨⟨0, 0⟩, ⟨0, 0⟩, ⟨0, 0⟩⟩, ⟨5⟩⟩ : BallEnt)],
      |c.vo.position_current.y -
        (⟨0, ⟨⟨0, 0⟩, ⟨0, 0⟩, ⟨0, 0⟩⟩, ⟨5⟩⟩ : BallEnt).vo.position_current.y -
        2⁻¹ * GRAVITY * ((1:ℕ) * (1:ℝ)) ^ 2| ≤ 500 * 1 * ((1:ℕ) * (1:ℝ)) :=
  ⟨rfl, rfl, by norm_num,
    c7_free_fall_displacement ⟨0, ⟨⟨0, 0⟩, ⟨0, 0⟩, ⟨0, 0⟩⟩, ⟨5⟩⟩ 1 1 rfl rfl (by norm_num)⟩

theorem setPos_ok_ids (h : Nat) (p : Vec2) :
    ∀ bs bs2, setPos h p bs = .ok bs2 → bs2.map BallEnt.id = bs.map BallEnt.id := by
  intro bs
  induction bs with
  | nil => intro bs2 hok; cases hok
  | cons b tl ih =>
    intro bs2 hok
    unfold setPos at hok
    by_cases hb : b.id = h
    · rw [if_pos hb, Except.ok.injEq] at hok
      subst hok
      rfl
    · rw [if_neg hb] at hok
      cases hrec : setPos h p tl with
      | error e => rw [hrec] at hok; cases hok
      | ok tl2 =>
        rw [hrec, Except.ok.injEq] at hok
        subst hok
        rw [List.map_cons, List.map_cons, ih tl2 hrec]

theorem applyNewPositions_ok_ids :
    ∀ (nps : List (Nat × Vec2)) (bs bs2 : List BallEnt),
      applyNewPositions nps bs = .ok bs2 → bs2.map BallEnt.id = bs.map BallEnt.id := by
  intro nps
  induction nps with
  | nil =>
    intro bs bs2 hok
    rw [applyNewPositions, foldExcept, Except.ok.injEq] at hok
    subst hok
    rfl
  | cons hp tl ih =>
    intro bs bs2 hok
    rw [applyNewPositions, foldExcept] at hok
    cases hsp : setPos hp.1 hp.2 bs with
    | error e => rw [hsp] at hok; cases hok
    | ok bs1 => rw [hsp] at hok; rw [ih bs1 bs2 hok, setPos_ok_ids hp.1 hp.2 bs bs1 hsp]

theorem solve_colisions_ok_ids (bs : List BallEnt) (qt : Quadtree) (bs2 : List BallEnt)
    (hok : solve_colisions bs qt = .ok bs2) : bs2.map BallEnt.id = bs.map BallEnt.id := by
  unfold solve_colisions at hok
  cases hm : mapExcept (entryNewPos bs qt) qt with
  | error e => rw [hm] at hok; cases hok
  | ok nps =>
    simp only [hm] at hok
    exact applyNewPositions_ok_ids nps bs bs2 hok

theorem substep_ok_ids (s : ℝ) (w w2 : World) (hok : substep s w = .ok w2) :
    w2.bodies.map BallEnt.id = w.bodies.map BallEnt.id := by
  simp only [substep] at hok
  cases huq : update_quadtree w.quadtree (update_position s (apply_gravity w.bodies)) with
  | error e => rw [huq] at hok; cases hok
  | ok qt =>
    simp only [huq] at hok
    cases hsc : solve_colisions (update_position s (apply_gravity w.bodies)) qt with
    | error e => simp only [hsc] at hok; cases hok
    | ok bodies3 =>
      simp only [hsc, Except.ok.injEq] at hok
      subst hok
      show (solve_constraints bodies3).map BallEnt.id = w.bodies.map BallEnt.id
      have h3 : (solve_constraints bodies3).map BallEnt.id = bodies3.map BallEnt.id := by
        rw [solve_constraints, List.map_map]
        rfl
      have h2 : (update_position s (apply_gravity w.bodies)).map BallEnt.id =
          w.bodies.map BallEnt.id := by
        rw [update_position, apply_gravity, List.map_map, List.map_map]
        rfl
      rw [h3, solve_colisions_ok_ids _ _ _ hsc, h2]

theorem loopSubsteps_ok_ids (s : ℝ) :
    ∀ (n : ℕ) (w w2 : World), loopSubsteps s n w = .ok w2 →
      w2.bodies.map BallEnt.id = w.bodies.map BallEnt.id := by
  intro n
  induction n with
  | zero =>
    intro w w2 hok
    rw [loopSubsteps, Except.ok.injEq] at hok
    subst hok
    rfl
  | succ m ih =>
    intro w w2 hok
    rw [loopSubsteps_succ] at hok
    cases hs : substep s w with
    | error e => rw [hs] at hok; cases hok
    | ok w1 => rw [hs] at hok; rw [ih w1 w2 hok, substep_ok_ids s w w1 hs]

/-- C8: each spawn request appends exactly one new body: its
`position_current` is the arena center, its `position_old` is the small
random jitter `(rx, ry)` with `rx, ry ∈ [0,1)`, its radius is
`rr * 10 + 5 ∈ [5, 15)` for the uniform draw `rr ∈ [0,1)`; one entry is
inserted into the index for it; and a completed physics step never
removes a body — the stored handles are preserved exactly. -/
theorem c8_spawn_creates_one_body (i : Nat) (rx ry rr : ℝ) (w : World)
    (h0 : 0 ≤ rr) (h1 : rr < 1) :
    (spawn_ball i rx ry rr w).bodies =
      w.bodies ++ [⟨i, ⟨arenaCenter, ⟨rx, ry⟩, Vec2.zero⟩, ⟨rr * 10 + 5⟩⟩] ∧
    5 ≤ rr * 10 + 5 ∧ rr * 10 + 5 < 15 ∧
    (spawn_ball i rx ry rr w).quadtree =
      w.quadtree ++ [(i, Rect.new_centered 0 0 ((rr * 10 + 5) / 2) ((rr * 10 + 5) / 2))] ∧
    ∀ (dt : ℝ) (w2 : World), update_physics dt (spawn_ball i rx ry rr w) = .ok w2 →
      w2.bodies.map BallEnt.id = (spawn_ball i rx ry rr w).bodies.map BallEnt.id := by
  refine ⟨?_, by linarith, by linarith, rfl, ?_⟩
  · have hc : arenaCenter = Vec2.zero := by
      simp only [arenaCenter, ARENA, Vec2.zero, Vec2.mk.injEq]
      norm_num
    rw [hc]
    rfl
  · intro dt w2 hok
    exact loopSubsteps_ok_ids (dt / 5) 5 _ w2 hok

theorem c8_spawn_creates_one_body_witness :
    (0:ℝ) ≤ 0 ∧ (0:ℝ) < 1 ∧
    (spawn_ball 7 0 0 0 World.empty).bodies =
      World.empty.bodies ++ [⟨7, ⟨arenaCenter, ⟨0, 0⟩, Vec2.zero⟩, ⟨0 * 10 + 5⟩⟩] ∧
    (5:ℝ) ≤ 0 * 10 + 5 ∧ (0:ℝ) * 10 + 5 < 15 ∧
    (spawn_ball 7 0 0 0 World.empty).quadtree =
      World.empty.quadtree ++
        [(7, Rect.new_centered 0 0 ((0 * 10 + 5) / 2) ((0 * 10 + 5) / 2))] := by
  have h := c8_spawn_creates_one_body 7 0 0 0 World.empty (by norm_num) (by norm_num)
  exact ⟨by norm_num, by norm_num, h.1, h.2.1, h.2.2.1, h.2.2.2.1⟩

end Verlet
